import Mathlib

/-!
Verification of the DinarAI telegram-bot core: the resilient delivery
wrapper (`safe_send_message`, `safe_delete_message`), the markdown-to-HTML
text transform (`markdown_to_html`), and the question-processing flow
(`process_question`).  Each definition is a shallow embedding of the
corresponding Python function in `src/utils.py`, `src/config.py`,
`src/handlers.py` and `src/main.py`; the transport and the remote HTTP
service are modelled as explicit outcome parameters.
-/

namespace DinarAI

/-! ## Configuration (src/config.py lines 19-21; same literals inline in src/main.py) -/

def MAX_RETRIES : Nat := 5

def INITIAL_RETRY_DELAY : Nat := 1

def API_TIMEOUT : Nat := 240

/-! ## Delivery wrapper: send (src/utils.py lines 22-38, src/main.py lines 50-66)

The transport is modelled as a function from the attempt index to the
outcome of that `message_obj.answer` call: success with a message handle,
a `TelegramRetryAfter` carrying the server-supplied wait, or any other
exception carrying its message. -/

inductive SendOutcome where
  | ok (handle : Nat)
  | retryAfter (seconds : Nat)
  | err (msg : String)
  deriving DecidableEq

/-- Observable actions of one `safe_send_message` run: a transport call
(with its 0-based attempt index) or an `asyncio.sleep` of some duration. -/
inductive SendEvent where
  | call (attempt : Nat)
  | sleep (seconds : Nat)
  deriving DecidableEq

/-- How `safe_send_message` finishes: a normal `return` (the Python
function returns the handle, or `None` when the `for` loop falls through),
or an exception propagated by the bare `raise`. -/
inductive SendResult where
  | returned (handle : Option Nat)
  | raised (msg : String)
  deriving DecidableEq

def isOk : SendOutcome → Bool
  | .ok _ => true
  | _ => false

/-- The `for attempt in range(MAX_RETRIES)` loop of `safe_send_message`.
`rem` is the number of loop iterations still available, `attempt` the
current iteration index and `delay` the local `retry_delay` variable.
A rate-limit outcome sleeps the server-supplied duration and leaves
`delay` unchanged; any other exception sleeps `delay` and doubles it,
except on the last attempt (`attempt == MAX_RETRIES - 1`) where it
re-raises.  Exhausting the loop returns `None`. -/
def sendLoopAux (beh : Nat → SendOutcome) (maxRetries : Nat) :
    Nat → Nat → Nat → List SendEvent × SendResult
  | 0, _, _ => ([], .returned none)
  | rem + 1, attempt, delay =>
    match beh attempt with
    | .ok h => ([.call attempt], .returned (some h))
    | .retryAfter s =>
      let r := sendLoopAux beh maxRetries rem (attempt + 1) delay
      (.call attempt :: .sleep s :: r.1, r.2)
    | .err e =>
      if attempt = maxRetries - 1 then ([.call attempt], .raised e)
      else
        let r := sendLoopAux beh maxRetries rem (attempt + 1) (delay * 2)
        (.call attempt :: .sleep delay :: r.1, r.2)

/-- `safe_send_message` (src/utils.py line 22): run the retry loop with the
configured budget and initial backoff delay, starting at attempt 0. -/
def safe_send_message (beh : Nat → SendOutcome) : List SendEvent × SendResult :=
  sendLoopAux beh MAX_RETRIES MAX_RETRIES 0 INITIAL_RETRY_DELAY

/-- Number of transport calls recorded in an event trace. -/
def numCalls (evs : List SendEvent) : Nat :=
  (evs.filter fun e => match e with | .call _ => true | _ => false).length

/-- Durations of the `asyncio.sleep` events of a trace, in order. -/
def sleeps (evs : List SendEvent) : List Nat :=
  evs.filterMap fun e => match e with | .sleep s => some s | _ => none

theorem numCalls_sendLoopAux_le (beh : Nat → SendOutcome) (m : Nat) :
    ∀ rem a d, numCalls (sendLoopAux beh m rem a d).1 ≤ rem := by
  intro rem
  induction rem with
  | zero => intro a d; simp [sendLoopAux, numCalls]
  | succ n ih =>
    intro a d
    cases hb : beh a with
    | ok h => simp [sendLoopAux, hb, numCalls]
    | retryAfter s =>
      have := ih (a + 1) d
      simp only [sendLoopAux, hb, numCalls] at *
      simp only [List.filter_cons, List.length_cons]
      simp
      omega
    | err e =>
      by_cases hlast : a = m - 1
      · subst hlast
        simp [sendLoopAux, hb, numCalls]
      · have := ih (a + 1) (d * 2)
        simp only [sendLoopAux, hb, hlast, if_false, numCalls] at *
        simp only [List.filter_cons, List.length_cons]
        simp
        omega

/-- C5: for every transport behaviour, `safe_send_message` makes at most
`MAX_RETRIES` (= 5) calls to the transport; no execution performs a 6th
send attempt. -/
theorem safe_send_message_at_most_five_calls (beh : Nat → SendOutcome) :
    numCalls (safe_send_message beh).1 ≤ MAX_RETRIES ∧ MAX_RETRIES = 5 := by
  exact ⟨numCalls_sendLoopAux_le beh MAX_RETRIES MAX_RETRIES 0 INITIAL_RETRY_DELAY, rfl⟩

theorem sendLoopAux_step_retry (beh : Nat → SendOutcome) (m rem a d s : Nat)
    (hb : beh a = .retryAfter s) :
    sendLoopAux beh m (rem + 1) a d =
      (.call a :: .sleep s :: (sendLoopAux beh m rem (a + 1) d).1,
        (sendLoopAux beh m rem (a + 1) d).2) := by
  simp [sendLoopAux, hb]

theorem sendLoopAux_step_err_last (beh : Nat → SendOutcome) (m rem a d : Nat)
    (e : String) (hb : beh a = .err e) (hl : a = m - 1) :
    sendLoopAux beh m (rem + 1) a d = ([.call a], .raised e) := by
  subst hl
  simp [sendLoopAux, hb]

theorem sendLoopAux_step_err (beh : Nat → SendOutcome) (m rem a d : Nat)
    (e : String) (hb : beh a = .err e) (hl : ¬ a = m - 1) :
    sendLoopAux beh m (rem + 1) a d =
      (.call a :: .sleep d :: (sendLoopAux beh m rem (a + 1) (d * 2)).1,
        (sendLoopAux beh m rem (a + 1) (d * 2)).2) := by
  simp [sendLoopAux, hb, hl]

theorem sendLoopAux_fail_result (beh : Nat → SendOutcome) (m : Nat) :
    ∀ rem a d, 1 ≤ rem → a + rem = m →
      (∀ k, a ≤ k → k < m → isOk (beh k) = false) →
      (sendLoopAux beh m rem a d).2 =
        (match beh (m - 1) with
         | .err e => .raised e
         | _ => .returned none) := by
  intro rem
  induction rem with
  | zero => intro a d h1; omega
  | succ n ih =>
    intro a d _ hsum hfail
    have ham : a < m := by omega
    cases hb : beh a with
    | ok h => have := hfail a (le_refl a) ham; simp [isOk, hb] at this
    | retryAfter s =>
      cases n with
      | zero =>
        have he : a = m - 1 := by omega
        subst he
        simp [sendLoopAux, hb]
      | succ n' =>
        have heq := ih (a + 1) d (by omega) (by omega)
          (fun k hk1 hk2 => hfail k (by omega) hk2)
        rw [sendLoopAux_step_retry beh m (n' + 1) a d s hb]
        exact heq
    | err e =>
      cases n with
      | zero =>
        have he : a = m - 1 := by omega
        subst he
        simp [sendLoopAux, hb]
      | succ n' =>
        have hne : ¬ (a = m - 1) := by omega
        have heq := ih (a + 1) (d * 2) (by omega) (by omega)
          (fun k hk1 hk2 => hfail k (by omega) hk2)
        rw [sendLoopAux_step_err beh m (n' + 1) a d e hb hne]
        exact heq

theorem sendLoopAux_fail_trail (beh : Nat → SendOutcome) (m : Nat) (s : Nat)
    (hlast : beh (m - 1) = .retryAfter s) :
    ∀ rem a d, 1 ≤ rem → a + rem = m →
      (∀ k, a ≤ k → k < m → isOk (beh k) = false) →
      ∃ pre, (sendLoopAux beh m rem a d).1 = pre ++ [.call (m - 1), .sleep s] := by
  intro rem
  induction rem with
  | zero => intro a d h1; omega
  | succ n ih =>
    intro a d _ hsum hfail
    have ham : a < m := by omega
    cases n with
    | zero =>
      have he : a = m - 1 := by omega
      subst he
      refine ⟨[], ?_⟩
      simp [sendLoopAux, hlast]
    | succ n' =>
      cases hb : beh a with
      | ok h => have := hfail a (le_refl a) ham; simp [isOk, hb] at this
      | retryAfter s' =>
        obtain ⟨pre, hpre⟩ := ih (a + 1) d (by omega) (by omega)
          (fun k hk1 hk2 => hfail k (by omega) hk2)
        refine ⟨.call a :: .sleep s' :: pre, ?_⟩
        rw [sendLoopAux_step_retry beh m (n' + 1) a d s' hb]
        simp [hpre]
      | err e =>
        have hne : ¬ (a = m - 1) := by omega
        obtain ⟨pre, hpre⟩ := ih (a + 1) (d * 2) (by omega) (by omega)
          (fun k hk1 hk2 => hfail k (by omega) hk2)
        refine ⟨.call a :: .sleep d :: pre, ?_⟩
        rw [sendLoopAux_step_err beh m (n' + 1) a d e hb hne]
        simp [hpre]

/-- C1 (counterexample): a transport that is rate-limited on every one of
the 5 attempts makes `safe_send_message` fall out of its `for` loop and
return `None`: every attempt fails, yet no failure is propagated and the
function returns normally without a message handle. -/
theorem safe_send_message_all_rate_limited_returns_none :
    (∀ k, k < MAX_RETRIES → isOk ((fun _ => SendOutcome.retryAfter 1) k) = false) ∧
      (safe_send_message (fun _ => SendOutcome.retryAfter 1)).2 = .returned none := by
  constructor
  · intro k _; rfl
  · decide

/-- C1 (amended): when every configured attempt fails, `safe_send_message`
never returns a handle; if the final attempt failed with a non-rate-limit
error, that last cause is propagated to the caller, while if the final
attempt was a rate-limit signal the function returns `None` instead of
failing. -/
theorem safe_send_message_exhaustion_outcome (beh : Nat → SendOutcome)
    (hfail : ∀ k, k < MAX_RETRIES → isOk (beh k) = false) :
    (∀ e, beh (MAX_RETRIES - 1) = .err e → (safe_send_message beh).2 = .raised e) ∧
      (∀ s, beh (MAX_RETRIES - 1) = .retryAfter s →
        (safe_send_message beh).2 = .returned none) := by
  have key := sendLoopAux_fail_result beh MAX_RETRIES MAX_RETRIES 0 INITIAL_RETRY_DELAY
    (by decide) (by omega) (fun k _ hk => hfail k hk)
  constructor
  · intro e he
    rw [he] at key
    exact key
  · intro s hs
    rw [hs] at key
    exact key

/-- C1 witness. -/
theorem safe_send_message_exhaustion_outcome_witness :
    (safe_send_message (fun _ => SendOutcome.err "boom")).2 = .raised "boom" :=
  (safe_send_message_exhaustion_outcome (fun _ => SendOutcome.err "boom")
    (fun _ _ => rfl)).1 "boom" rfl

/-- C10: if every attempt before the last fails and the final loop
iteration raises a rate-limit signal, `safe_send_message` sleeps the
supplied duration as its very last action (the trace ends with the 5th
call followed by that sleep), the loop terminates, and the function
returns `None`: the caller receives neither a handle nor an exception. -/
theorem safe_send_message_final_rate_limit_returns_none (beh : Nat → SendOutcome)
    (s : Nat) (hfail : ∀ k, k < MAX_RETRIES → isOk (beh k) = false)
    (hlast : beh (MAX_RETRIES - 1) = .retryAfter s) :
    (safe_send_message beh).2 = .returned none ∧
      ∃ pre, (safe_send_message beh).1 =
        pre ++ [.call (MAX_RETRIES - 1), .sleep s] := by
  refine ⟨(safe_send_message_exhaustion_outcome beh hfail).2 s hlast, ?_⟩
  exact sendLoopAux_fail_trail beh MAX_RETRIES s hlast MAX_RETRIES 0 INITIAL_RETRY_DELAY
    (by decide) (by omega) (fun k _ hk => hfail k hk)

/-- C10 witness. -/
theorem safe_send_message_final_rate_limit_returns_none_witness :
    (safe_send_message (fun _ => SendOutcome.retryAfter 7)).2 = .returned none ∧
      ∃ pre, (safe_send_message (fun _ => SendOutcome.retryAfter 7)).1 =
        pre ++ [.call (MAX_RETRIES - 1), .sleep 7] :=
  safe_send_message_final_rate_limit_returns_none (fun _ => SendOutcome.retryAfter 7) 7
    (fun _ _ => rfl) rfl

/-- C3: a rate-limit signal on attempt `a` makes the loop sleep exactly the
transport-supplied duration `s`, pass the local backoff `delay` on
unchanged, and consume exactly one of the bounded iterations; consequently
a transport that is rate-limited on every attempt exhausts the whole
budget with every sleep equal to the server-supplied wait (the backoff
delay never doubles, never appears in the trace) and the result `None`. -/
theorem safe_send_message_rate_limit_carve_out :
    (∀ (beh : Nat → SendOutcome) (m rem a delay s : Nat), beh a = .retryAfter s →
      sendLoopAux beh m (rem + 1) a delay =
        (.call a :: .sleep s :: (sendLoopAux beh m rem (a + 1) delay).1,
          (sendLoopAux beh m rem (a + 1) delay).2)) ∧
    (∀ (beh : Nat → SendOutcome) (ds : Nat → Nat),
      (∀ k, k < MAX_RETRIES → beh k = .retryAfter (ds k)) →
      safe_send_message beh =
        ([.call 0, .sleep (ds 0), .call 1, .sleep (ds 1), .call 2, .sleep (ds 2),
          .call 3, .sleep (ds 3), .call 4, .sleep (ds 4)], .returned none)) := by
  constructor
  · intro beh m rem a delay s hb
    simp [sendLoopAux, hb]
  · intro beh ds h
    have h0 := h 0 (by decide)
    have h1 := h 1 (by decide)
    have h2 := h 2 (by decide)
    have h3 := h 3 (by decide)
    have h4 := h 4 (by decide)
    simp [safe_send_message, MAX_RETRIES, INITIAL_RETRY_DELAY, sendLoopAux,
      h0, h1, h2, h3, h4]

/-- C3 witness. -/
theorem safe_send_message_rate_limit_carve_out_witness :
    sendLoopAux (fun _ => SendOutcome.retryAfter 9) 5 3 1 4 =
      (.call 1 :: .sleep 9 :: (sendLoopAux (fun _ => SendOutcome.retryAfter 9) 5 2 2 4).1,
        (sendLoopAux (fun _ => SendOutcome.retryAfter 9) 5 2 2 4).2) ∧
    safe_send_message (fun _ => SendOutcome.retryAfter 9) =
      ([.call 0, .sleep 9, .call 1, .sleep 9, .call 2, .sleep 9,
        .call 3, .sleep 9, .call 4, .sleep 9], .returned none) :=
  ⟨safe_send_message_rate_limit_carve_out.1 (fun _ => SendOutcome.retryAfter 9) 5 2 1 4 9 rfl,
    safe_send_message_rate_limit_carve_out.2 (fun _ => SendOutcome.retryAfter 9)
      (fun _ => 9) (fun _ _ => rfl)⟩

/-- C4: if the transport fails with a non-rate-limit transient error on the
first `N` attempts (`1 ≤ N < MAX_RETRIES`) and succeeds on attempt `N + 1`,
then `safe_send_message` returns the handle of the successful call, the
backoff sleeps are `INITIAL_RETRY_DELAY * 2 ^ i` for `i = 0, …, N - 1` (so
the delay slept before the final call is `INITIAL_RETRY_DELAY * 2 ^ (N-1)`),
and consecutive backoff delays strictly increase, each double the previous. -/
theorem safe_send_message_backoff_doubling (N : Nat) (beh : Nat → SendOutcome)
    (es : Nat → String) (h : Nat) (hN1 : 1 ≤ N) (hN2 : N < MAX_RETRIES)
    (hfail : ∀ k, k < N → beh k = .err (es k)) (hok : beh N = .ok h) :
    (safe_send_message beh).2 = .returned (some h) ∧
      sleeps (safe_send_message beh).1 =
        (List.range N).map (fun i => INITIAL_RETRY_DELAY * 2 ^ i) ∧
      (sleeps (safe_send_message beh).1).getLast? =
        some (INITIAL_RETRY_DELAY * 2 ^ (N - 1)) ∧
      List.Chain' (fun x y => y = 2 * x ∧ x < y) (sleeps (safe_send_message beh).1) := by
  have hN2' : N < 5 := hN2
  interval_cases N
  · have k0 := hfail 0 (by omega)
    refine ⟨?_, ?_, ?_, ?_⟩ <;>
      norm_num [safe_send_message, MAX_RETRIES, INITIAL_RETRY_DELAY, sendLoopAux,
        sleeps, k0, hok, List.chain'_cons, List.filterMap_cons, List.range_succ]
  · have k0 := hfail 0 (by omega)
    have k1 := hfail 1 (by omega)
    refine ⟨?_, ?_, ?_, ?_⟩ <;>
      norm_num [safe_send_message, MAX_RETRIES, INITIAL_RETRY_DELAY, sendLoopAux,
        sleeps, k0, k1, hok, List.chain'_cons, List.filterMap_cons, List.range_succ]
  · have k0 := hfail 0 (by omega)
    have k1 := hfail 1 (by omega)
    have k2 := hfail 2 (by omega)
    refine ⟨?_, ?_, ?_, ?_⟩ <;>
      norm_num [safe_send_message, MAX_RETRIES, INITIAL_RETRY_DELAY, sendLoopAux,
        sleeps, k0, k1, k2, hok, List.chain'_cons, List.filterMap_cons, List.range_succ]
  · have k0 := hfail 0 (by omega)
    have k1 := hfail 1 (by omega)
    have k2 := hfail 2 (by omega)
    have k3 := hfail 3 (by omega)
    refine ⟨?_, ?_, ?_, ?_⟩ <;>
      norm_num [safe_send_message, MAX_RETRIES, INITIAL_RETRY_DELAY, sendLoopAux,
        sleeps, k0, k1, k2, k3, hok, List.chain'_cons, List.filterMap_cons, List.range_succ]

/-- C4 witness. -/
theorem safe_send_message_backoff_doubling_witness :
    (safe_send_message (fun k => if k < 3 then .err "boom" else .ok 42)).2 =
        .returned (some 42) ∧
      sleeps (safe_send_message (fun k => if k < 3 then .err "boom" else .ok 42)).1 =
        (List.range 3).map (fun i => INITIAL_RETRY_DELAY * 2 ^ i) ∧
      (sleeps (safe_send_message (fun k => if k < 3 then .err "boom" else .ok 42)).1).getLast? =
        some (INITIAL_RETRY_DELAY * 2 ^ (3 - 1)) ∧
      List.Chain' (fun x y => y = 2 * x ∧ x < y)
        (sleeps (safe_send_message (fun k => if k < 3 then .err "boom" else .ok 42)).1) :=
  safe_send_message_backoff_doubling 3 (fun k => if k < 3 then .err "boom" else .ok 42)
    (fun _ => "boom") 42 (by omega) (by decide)
    (fun k hk => by simp [hk]) (by simp)

/-! ## Markup transformer (src/utils.py lines 41-53, src/main.py lines 69-76)

`markdown_to_html` is a chain of six `re.sub` applications.  The three
heading patterns use `re.MULTILINE` anchors with `.` not matching a
newline, so each acts independently on every newline-separated segment of
the text; the three inline patterns scan the whole text left to right,
replacing each non-greedy (shortest, newline-free) delimited span and
resuming after the replacement. -/

/-- Split a character list at every newline, like the segments seen by a
`re.MULTILINE` `^ ... $` pattern (a trailing newline yields a final empty
segment). -/
def splitLines : List Char → List (List Char)
  | [] => [[]]
  | c :: cs =>
    if c = '\n' then [] :: splitLines cs
    else
      match splitLines cs with
      | [] => [[c]]
      | l :: ls => (c :: l) :: ls

/-- Rejoin newline-separated segments. -/
def joinLines : List (List Char) → List Char
  | [] => []
  | [l] => l
  | l :: l' :: ls => l ++ '\n' :: joinLines (l' :: ls)

theorem splitLines_ne_nil (t : List Char) : splitLines t ≠ [] := by
  induction t with
  | nil => simp [splitLines]
  | cons c cs ih =>
    by_cases hc : c = '\n'
    · simp [splitLines, hc]
    · simp only [splitLines, hc, if_false]
      cases h : splitLines cs with
      | nil => simp
      | cons l ls => simp

theorem joinLines_splitLines (t : List Char) : joinLines (splitLines t) = t := by
  induction t with
  | nil => rfl
  | cons c cs ih =>
    by_cases hc : c = '\n'
    · subst hc
      simp only [splitLines, if_pos rfl]
      cases h : splitLines cs with
      | nil => exact absurd h (splitLines_ne_nil cs)
      | cons l ls =>
        rw [h] at ih
        simp [joinLines, ih]
    · simp only [splitLines, hc, if_false]
      cases h : splitLines cs with
      | nil => exact absurd h (splitLines_ne_nil cs)
      | cons l ls =>
        rw [h] at ih
        cases ls with
        | nil => simp_all [joinLines]
        | cons l' ls' => simp_all [joinLines]

theorem splitLines_no_newline (t : List Char) (h : '\n' ∉ t) :
    splitLines t = [t] := by
  induction t with
  | nil => rfl
  | cons c cs ih =>
    simp only [List.mem_cons, not_or] at h
    simp only [splitLines, (Ne.symm h.1 : ¬ c = '\n'), if_false, ih h.2]

/-- One heading rule applied to one line: if the line starts with the
marker (e.g. `"### "`), wrap the remainder in the given open/close tags,
otherwise leave the line alone.  This is `re.sub(r'^MARKER (.*?)$', ...)`
restricted to a single newline-free segment. -/
def headingSub (marker opn cls : List Char) (line : List Char) : List Char :=
  if marker.isPrefixOf line then opn ++ line.drop marker.length ++ cls else line

/-- Apply a per-line rewrite to every newline-separated segment of the
text, as a `re.MULTILINE` substitution does. -/
def mapLines (f : List Char → List Char) (t : List Char) : List Char :=
  joinLines ((splitLines t).map f)

/-- Search for the closing delimiter `d` of a non-greedy inline match: the
shortest newline-free span `content` after which `d` occurs.  Returns the
content and the text after the closing delimiter, or `none` when no
closing delimiter occurs before a newline or the end of the text. -/
def findClose (d : List Char) : List Char → Option (List Char × List Char)
  | [] => none
  | c :: cs =>
    if d.isPrefixOf (c :: cs) then some ([], (c :: cs).drop d.length)
    else if c = '\n' then none
    else
      match findClose d cs with
      | some (content, rest) => some (c :: content, rest)
      | none => none

/-- Left-to-right scan of `re.sub(d + lazy content + d, opn content cls)`:
at each position, if the delimiter starts here and a closing delimiter
follows, emit the wrapped content and resume after the match, otherwise
emit one character and move on.  `fuel` bounds the recursion; it is always
called with the length of the text, which the scan never outruns. -/
def subWrapF (d opn cls : List Char) : Nat → List Char → List Char
  | 0, t => t
  | _ + 1, [] => []
  | fuel + 1, c :: cs =>
    if d.isPrefixOf (c :: cs) then
      match findClose d ((c :: cs).drop d.length) with
      | some (content, rest) => opn ++ content ++ cls ++ subWrapF d opn cls fuel rest
      | none => c :: subWrapF d opn cls fuel cs
    else c :: subWrapF d opn cls fuel cs

/-- Global inline substitution wrapping every delimited span. -/
def subWrap (d opn cls : List Char) (t : List Char) : List Char :=
  subWrapF d opn cls t.length t

/-- Rule 1: `re.sub(r'^### (.*?)$', r'<b><i>\1</i></b>', text, flags=re.MULTILINE)`. -/
def mdRuleH3 (t : List Char) : List Char :=
  mapLines (headingSub "### ".data "<b><i>".data "</i></b>".data) t

/-- Rule 2: `re.sub(r'^## (.*?)$', r'<b>\1</b>', text, flags=re.MULTILINE)`. -/
def mdRuleH2 (t : List Char) : List Char :=
  mapLines (headingSub "## ".data "<b>".data "</b>".data) t

/-- Rule 3: `re.sub(r'^# (.*?)$', r'<b><u>\1</u></b>', text, flags=re.MULTILINE)`. -/
def mdRuleH1 (t : List Char) : List Char :=
  mapLines (headingSub "# ".data "<b><u>".data "</u></b>".data) t

/-- Rule 4: `re.sub(r'\*\*(.*?)\*\*', r'<b>\1</b>', text)`. -/
def mdRuleBold (t : List Char) : List Char :=
  subWrap "**".data "<b>".data "</b>".data t

/-- Rule 5: `re.sub(r'\*(.*?)\*', r'<i>\1</i>', text)`. -/
def mdRuleItalic (t : List Char) : List Char :=
  subWrap "*".data "<i>".data "</i>".data t

/-- Rule 6: `re.sub(r'`(.*?)`', r'<code>\1</code>', text)`. -/
def mdRuleCode (t : List Char) : List Char :=
  subWrap "`".data "<code>".data "</code>".data t

/-- `markdown_to_html` (src/utils.py line 41): the six substitutions in
source order. -/
def markdown_to_html (s : String) : String :=
  ⟨mdRuleCode (mdRuleItalic (mdRuleBold (mdRuleH1 (mdRuleH2 (mdRuleH3 s.data)))))⟩

theorem not_mem_cons_char {c a : Char} {l : List Char} (h1 : ¬ c = a) (h2 : c ∉ l) :
    c ∉ a :: l := by
  simp [List.mem_cons, h1, h2]

theorem not_mem_wrap {c : Char} {pre post s : List Char}
    (h1 : c ∉ pre) (h2 : c ∉ s) (h3 : c ∉ post) : c ∉ pre ++ s ++ post := by
  simp [List.mem_append]
  tauto

/-- The backtick character, U+0060. -/
def backtickChar : Char := Char.ofNat 96

theorem isPrefixOf_nil_left (l : List Char) : List.isPrefixOf [] l = true := by
  cases l <;> rfl

theorem isPrefixOf_cons_cons (a b : Char) (as bs : List Char) :
    List.isPrefixOf (a :: as) (b :: bs) = (a == b && List.isPrefixOf as bs) := rfl

theorem subWrapF_not_mem (ch : Char) (d' opn cls : List Char) :
    ∀ fuel t, ch ∉ t → subWrapF (ch :: d') opn cls fuel t = t := by
  intro fuel
  induction fuel with
  | zero => intro t _; rfl
  | succ n ih =>
    intro t ht
    cases t with
    | nil => rfl
    | cons c cs =>
      simp only [List.mem_cons, not_or] at ht
      obtain ⟨hne, hmem⟩ := ht
      have hpre : (ch :: d').isPrefixOf (c :: cs) = false := by
        simp [isPrefixOf_cons_cons, hne]
      simp only [subWrapF, hpre, Bool.false_eq_true, if_false]
      rw [ih cs hmem]

theorem subWrap_not_mem (ch : Char) (d' opn cls : List Char) (t : List Char)
    (h : ch ∉ t) : subWrap (ch :: d') opn cls t = t :=
  subWrapF_not_mem ch d' opn cls t.length t h

theorem mdRuleBold_not_mem (t : List Char) (h : '*' ∉ t) : mdRuleBold t = t := by
  rw [mdRuleBold, show "**".data = '*' :: ['*'] from rfl]
  exact subWrap_not_mem '*' ['*'] _ _ t h

theorem mdRuleItalic_not_mem (t : List Char) (h : '*' ∉ t) : mdRuleItalic t = t := by
  rw [mdRuleItalic, show "*".data = '*' :: [] from rfl]
  exact subWrap_not_mem '*' [] _ _ t h

theorem mdRuleCode_not_mem (t : List Char) (h : backtickChar ∉ t) : mdRuleCode t = t := by
  rw [mdRuleCode, show "`".data = backtickChar :: [] from rfl]
  exact subWrap_not_mem backtickChar [] _ _ t h

theorem mapLines_single (f : List Char → List Char) (t : List Char)
    (h : '\n' ∉ t) : mapLines f t = f t := by
  simp [mapLines, splitLines_no_newline t h, joinLines]

theorem mapLines_id (f : List Char → List Char) (t : List Char)
    (h : ∀ l ∈ splitLines t, f l = l) : mapLines f t = t := by
  rw [mapLines, List.map_congr_left h]
  simp [joinLines_splitLines]

theorem headingSub_neg (marker opn cls line : List Char)
    (h : marker.isPrefixOf line = false) :
    headingSub marker opn cls line = line := by
  simp [headingSub, h]

theorem headingSub_pos (marker opn cls line : List Char)
    (h : marker.isPrefixOf line = true) :
    headingSub marker opn cls line = opn ++ line.drop marker.length ++ cls := by
  simp [headingSub, h]

/-- C7: the line `"### Heading"` is rewritten to combined bold+italic
markup with no residual `#` or `*` characters; the six substitution rules
are applied in source order, each globally over the whole text before the
next; and (for any newline-free, asterisk-free, backtick-free remainder
`s`) a line beginning `"## "` becomes bold markup while a line beginning
`"# "` becomes bold+underline markup. -/
theorem markdown_to_html_heading_rules :
    (markdown_to_html "### Heading" = "<b><i>Heading</i></b>" ∧
      ∀ c ∈ (markdown_to_html "### Heading").data, ¬ c = '#' ∧ ¬ c = '*') ∧
    (∀ t : String, markdown_to_html t =
      ⟨mdRuleCode (mdRuleItalic (mdRuleBold (mdRuleH1 (mdRuleH2 (mdRuleH3 t.data)))))⟩) ∧
    (∀ s : String, '\n' ∉ s.data → '*' ∉ s.data → backtickChar ∉ s.data →
      markdown_to_html ("## " ++ s) = "<b>" ++ s ++ "</b>") ∧
    (∀ s : String, '\n' ∉ s.data → '*' ∉ s.data → backtickChar ∉ s.data →
      markdown_to_html ("# " ++ s) = "<b><u>" ++ s ++ "</u></b>") := by
  refine ⟨⟨by decide, by decide⟩, fun t => rfl, fun s hn hs ht => ?_, fun s hn hs ht => ?_⟩
  · have hdata : ("## " ++ s).data = '#' :: '#' :: ' ' :: s.data := by
      rw [String.data_append]
      rfl
    have hn0 : '\n' ∉ ('#' :: '#' :: ' ' :: s.data) :=
      not_mem_cons_char (by decide) (not_mem_cons_char (by decide)
        (not_mem_cons_char (by decide) hn))
    have h3 : mdRuleH3 ('#' :: '#' :: ' ' :: s.data) = '#' :: '#' :: ' ' :: s.data := by
      rw [mdRuleH3, mapLines_single _ _ hn0, headingSub_neg]
      rfl
    have hpre : "## ".data.isPrefixOf ('#' :: '#' :: ' ' :: s.data) = true := by
      rw [show "## ".data = ['#', '#', ' '] from rfl]
      simp [isPrefixOf_cons_cons, isPrefixOf_nil_left]
    have h2 : mdRuleH2 ('#' :: '#' :: ' ' :: s.data) =
        "<b>".data ++ s.data ++ "</b>".data := by
      rw [mdRuleH2, mapLines_single _ _ hn0, headingSub_pos _ _ _ _ hpre]
      rfl
    have hnotn : '\n' ∉ "<b>".data ++ s.data ++ "</b>".data :=
      not_mem_wrap (by decide) hn (by decide)
    have hnots : '*' ∉ "<b>".data ++ s.data ++ "</b>".data :=
      not_mem_wrap (by decide) hs (by decide)
    have hnott : backtickChar ∉ "<b>".data ++ s.data ++ "</b>".data :=
      not_mem_wrap (by decide) ht (by decide)
    have h1 : mdRuleH1 ("<b>".data ++ s.data ++ "</b>".data) =
        "<b>".data ++ s.data ++ "</b>".data := by
      rw [mdRuleH1, mapLines_single _ _ hnotn, headingSub_neg]
      rfl
    have hchain : mdRuleCode (mdRuleItalic (mdRuleBold (mdRuleH1 (mdRuleH2 (mdRuleH3
        ("## " ++ s).data))))) = ("<b>" ++ s ++ "</b>").data := by
      rw [hdata, h3, h2, h1, mdRuleBold_not_mem _ hnots, mdRuleItalic_not_mem _ hnots,
        mdRuleCode_not_mem _ hnott, String.data_append, String.data_append]
    exact congrArg String.mk hchain
  · have hdata : ("# " ++ s).data = '#' :: ' ' :: s.data := by
      rw [String.data_append]
      rfl
    have hn0 : '\n' ∉ ('#' :: ' ' :: s.data) :=
      not_mem_cons_char (by decide) (not_mem_cons_char (by decide) hn)
    have h3 : mdRuleH3 ('#' :: ' ' :: s.data) = '#' :: ' ' :: s.data := by
      rw [mdRuleH3, mapLines_single _ _ hn0, headingSub_neg]
      rfl
    have h2 : mdRuleH2 ('#' :: ' ' :: s.data) = '#' :: ' ' :: s.data := by
      rw [mdRuleH2, mapLines_single _ _ hn0, headingSub_neg]
      rfl
    have hpre : "# ".data.isPrefixOf ('#' :: ' ' :: s.data) = true := by
      rw [show "# ".data = ['#', ' '] from rfl]
      simp [isPrefixOf_cons_cons, isPrefixOf_nil_left]
    have h1 : mdRuleH1 ('#' :: ' ' :: s.data) =
        "<b><u>".data ++ s.data ++ "</u></b>".data := by
      rw [mdRuleH1, mapLines_single _ _ hn0, headingSub_pos _ _ _ _ hpre]
      rfl
    have hnots : '*' ∉ "<b><u>".data ++ s.data ++ "</u></b>".data :=
      not_mem_wrap (by decide) hs (by decide)
    have hnott : backtickChar ∉ "<b><u>".data ++ s.data ++ "</u></b>".data :=
      not_mem_wrap (by decide) ht (by decide)
    have hchain : mdRuleCode (mdRuleItalic (mdRuleBold (mdRuleH1 (mdRuleH2 (mdRuleH3
        ("# " ++ s).data))))) = ("<b><u>" ++ s ++ "</u></b>").data := by
      rw [hdata, h3, h2, h1, mdRuleBold_not_mem _ hnots, mdRuleItalic_not_mem _ hnots,
        mdRuleCode_not_mem _ hnott, String.data_append, String.data_append]
    exact congrArg String.mk hchain

/-- C7 witness. -/
theorem markdown_to_html_heading_rules_witness :
    markdown_to_html ("## " ++ "Heading") = "<b>" ++ "Heading" ++ "</b>" ∧
      markdown_to_html ("# " ++ "Heading") = "<b><u>" ++ "Heading" ++ "</u></b>" :=
  ⟨markdown_to_html_heading_rules.2.2.1 "Heading" (by decide) (by decide) (by decide),
    markdown_to_html_heading_rules.2.2.2 "Heading" (by decide) (by decide) (by decide)⟩

/-- C8: a text with no markup markers — no asterisk, no backtick, and no
line starting with a heading marker followed by a space — is returned
unchanged by `markdown_to_html`, and hence applying the transform twice to
such a text equals applying it once. -/
theorem markdown_to_html_plain_identity (s : String)
    (hstar : '*' ∉ s.data) (htick : backtickChar ∉ s.data)
    (hhead : ∀ l ∈ splitLines s.data,
      "### ".data.isPrefixOf l = false ∧ "## ".data.isPrefixOf l = false ∧
        "# ".data.isPrefixOf l = false) :
    markdown_to_html s = s ∧
      markdown_to_html (markdown_to_html s) = markdown_to_html s := by
  have h3 : mdRuleH3 s.data = s.data :=
    mapLines_id _ _ (fun l hl => headingSub_neg _ _ _ _ (hhead l hl).1)
  have h2 : mdRuleH2 s.data = s.data :=
    mapLines_id _ _ (fun l hl => headingSub_neg _ _ _ _ (hhead l hl).2.1)
  have h1 : mdRuleH1 s.data = s.data :=
    mapLines_id _ _ (fun l hl => headingSub_neg _ _ _ _ (hhead l hl).2.2)
  have hchain : mdRuleCode (mdRuleItalic (mdRuleBold (mdRuleH1 (mdRuleH2 (mdRuleH3
      s.data))))) = s.data := by
    rw [h3, h2, h1, mdRuleBold_not_mem _ hstar, mdRuleItalic_not_mem _ hstar,
      mdRuleCode_not_mem _ htick]
  have hid : markdown_to_html s = s := congrArg String.mk hchain
  refine ⟨hid, ?_⟩
  rw [hid]
  exact hid

/-- C8 witness. -/
theorem markdown_to_html_plain_identity_witness :
    markdown_to_html "plain text, no markers." = "plain text, no markers." ∧
      markdown_to_html (markdown_to_html "plain text, no markers.") =
        markdown_to_html "plain text, no markers." :=
  markdown_to_html_plain_identity "plain text, no markers."
    (by decide) (by decide) (by decide)

/-! ## Delivery wrapper: delete (src/utils.py lines 9-19, src/main.py lines 38-47)

The transport's `bot.delete_message` is modelled by its outcome: success,
a `TelegramBadRequest` carrying its message text, or any other exception. -/

inductive DeleteOutcome where
  | ok
  | badRequest (msg : String)
  | otherError (msg : String)
  deriving DecidableEq

inductive LogLevel where
  | warning
  | error
  deriving DecidableEq

/-- The substring `safe_delete_message` looks for in a `TelegramBadRequest`
to recognise a benign "message already gone" condition. -/
def notFoundNeedle : String := "message to delete not found"

/-- Python's `needle in hay` substring test. -/
def containsSub (needle hay : List Char) : Bool :=
  hay.tails.any fun t => needle.isPrefixOf t

/-- `safe_delete_message` (src/utils.py line 9): every transport outcome is
caught; a bad-request whose text contains the not-found needle logs a
warning, every other failure logs an error, and the function always
returns normally (the `Except` error branch is never produced). -/
def safe_delete_message (o : DeleteOutcome) : Except String (List LogLevel) :=
  match o with
  | .ok => .ok []
  | .badRequest m =>
    if containsSub notFoundNeedle.data m.data then .ok [.warning] else .ok [.error]
  | .otherError _ => .ok [.error]

/-- C6: `safe_delete_message` never propagates an error to its caller: on a
"message to delete not found" bad request it logs a warning and returns
success, and on any other transport error it logs at error level and still
returns success. -/
theorem safe_delete_message_absorbs (o : DeleteOutcome) :
    (∀ e, safe_delete_message o ≠ .error e) ∧
    (∀ m, o = .badRequest m → containsSub notFoundNeedle.data m.data = true →
      safe_delete_message o = .ok [.warning]) ∧
    (∀ m, o = .badRequest m → containsSub notFoundNeedle.data m.data = false →
      safe_delete_message o = .ok [.error]) ∧
    (∀ m, o = .otherError m → safe_delete_message o = .ok [.error]) := by
  refine ⟨?_, ?_, ?_, ?_⟩
  · intro e
    cases o with
    | ok => simp [safe_delete_message]
    | badRequest m =>
      by_cases hc : containsSub notFoundNeedle.data m.data <;>
        simp [safe_delete_message, hc]
    | otherError m => simp [safe_delete_message]
  · intro m ho hc
    subst ho
    simp [safe_delete_message, hc]
  · intro m ho hc
    subst ho
    simp [safe_delete_message, hc]
  · intro m ho
    subst ho
    simp [safe_delete_message]

/-- C6 witness. -/
theorem safe_delete_message_absorbs_witness :
    safe_delete_message (.badRequest "Bad Request: message to delete not found") =
        .ok [.warning] ∧
      safe_delete_message (.otherError "network down") = .ok [.error] :=
  ⟨(safe_delete_message_absorbs
      (.badRequest "Bad Request: message to delete not found")).2.1
        "Bad Request: message to delete not found" rfl (by decide),
    (safe_delete_message_absorbs (.otherError "network down")).2.2.2
      "network down" rfl⟩

/-! ## Question-processing flow (src/handlers.py lines 68-123, src/main.py lines 102-151)

The remote service's JSON body is modelled by the three keys the two
variants of `process_question` read: `answer`, `sources` (read by
src/main.py) and `urls` (read by src/handlers.py); a missing key makes
`data.get` fall back to its default. -/

structure ApiBody where
  answer : Option String
  sources : Option (List String)
  urls : Option (List String)
  deriving DecidableEq

/-- Fallback answer used by `data.get("answer", ...)`. -/
def defaultAnswer : String := "Извините, не удалось получить ответ."

/-- The `for i, source in enumerate(sources, 1):` loop appending one
numbered, markup-transformed line per source. -/
def sourcesSection (sources : List String) : String :=
  (sources.enumFrom 1).foldl
    (fun acc p => acc ++ toString p.1 ++ ". " ++ markdown_to_html p.2 ++ "\n") ""

/-- Assembly of `response_text`: the transformed answer, a blank line, and
— only when the source list is non-empty — the sources header plus the
numbered lines. -/
def buildResponseText (answer : String) (sources : List String) : String :=
  markdown_to_html answer ++ "\n\n" ++
    (if sources.isEmpty then "" else "📚 <b>Источники:</b>\n" ++ sourcesSection sources)

/-- Final 200-path message of the src/main.py variant, which reads the
`sources` key. -/
def process_question_ok_main (b : ApiBody) : String :=
  buildResponseText (b.answer.getD defaultAnswer) (b.sources.getD [])

/-- Final 200-path message of the src/handlers.py variant, which reads the
`urls` key. -/
def process_question_ok_handlers (b : ApiBody) : String :=
  buildResponseText (b.answer.getD defaultAnswer) (b.urls.getD [])

/-- Spec-side description of the sources section: each source `sᵢ` on its
own line, numbered consecutively starting from `i`. -/
def specNumberedFrom (i : Nat) : List String → String
  | [] => ""
  | s :: rest => toString i ++ ". " ++ markdown_to_html s ++ "\n" ++ specNumberedFrom (i + 1) rest

theorem sourcesSection_foldl (ss : List String) :
    ∀ i acc, (ss.enumFrom i).foldl
        (fun acc p => acc ++ toString p.1 ++ ". " ++ markdown_to_html p.2 ++ "\n") acc =
      acc ++ specNumberedFrom i ss := by
  induction ss with
  | nil => intro i acc; simp [List.enumFrom, specNumberedFrom, String.append_empty]
  | cons s rest ih =>
    intro i acc
    show (List.foldl _ (acc ++ toString i ++ ". " ++ markdown_to_html s ++ "\n")
      (rest.enumFrom (i + 1))) = _
    rw [ih (i + 1)]
    simp [specNumberedFrom, String.append_assoc]

theorem sourcesSection_eq_specNumbered (ss : List String) :
    sourcesSection ss = specNumberedFrom 1 ss := by
  have h := sourcesSection_foldl ss 1 ""
  rw [sourcesSection, h]
  rfl

/-- C2 (counterexample): for the HTTP-200 body
`{answer: "**Riba** is prohibited", sources: ["Quran 2:275"]}` the
src/handlers.py variant of `process_question` reads the key `urls`, finds
nothing, and sends the transformed answer with no sources section, while
the src/main.py variant produces the expected numbered section. -/
theorem process_question_sources_key_mismatch :
    process_question_ok_handlers
        ⟨some "**Riba** is prohibited", some ["Quran 2:275"], none⟩ =
      "<b>Riba</b> is prohibited\n\n" ∧
    process_question_ok_main
        ⟨some "**Riba** is prohibited", some ["Quran 2:275"], none⟩ =
      "<b>Riba</b> is prohibited\n\n📚 <b>Источники:</b>\n1. Quran 2:275\n" := by
  constructor <;> decide

/-- C2 (amended): on HTTP 200 with an answer `A` and a non-empty source
list `ss`, the final message is the markup-transformed `A`, a blank line,
and a sources section listing each source numbered from 1 — where the
src/main.py variant requires the list under the body key `sources` and the
src/handlers.py variant requires it under the body key `urls`. -/
theorem process_question_final_message (A : String) (ss : List String)
    (u s2 : Option (List String)) (hne : ss ≠ []) :
    process_question_ok_main ⟨some A, some ss, u⟩ =
        markdown_to_html A ++ "\n\n" ++
          ("📚 <b>Источники:</b>\n" ++ specNumberedFrom 1 ss) ∧
      process_question_ok_handlers ⟨some A, s2, some ss⟩ =
        markdown_to_html A ++ "\n\n" ++
          ("📚 <b>Источники:</b>\n" ++ specNumberedFrom 1 ss) := by
  have hemp : ss.isEmpty = false := by
    cases ss with
    | nil => exact absurd rfl hne
    | cons a l => rfl
  constructor <;>
    simp [process_question_ok_main, process_question_ok_handlers, buildResponseText,
      hemp, sourcesSection_eq_specNumbered, String.append_assoc]

/-- C2 witness: the spec's end-to-end scenario, on the src/main.py variant. -/
theorem process_question_final_message_witness :
    process_question_ok_main
        ⟨some "**Riba** is prohibited", some ["Quran 2:275"], none⟩ =
      markdown_to_html "**Riba** is prohibited" ++ "\n\n" ++
        ("📚 <b>Источники:</b>\n" ++ specNumberedFrom 1 ["Quran 2:275"]) :=
  (process_question_final_message "**Riba** is prohibited" ["Quran 2:275"]
    none none (by decide)).1

/-! ## Flow ordering (src/handlers.py lines 68-123; same shape in src/main.py) -/

/-- Outcome of the initial `safe_send_message(message, "Обрабатываю ...")`:
a handle, `None` (the wrapper fell through its loop), or a raised error. -/
inductive PhOutcome where
  | sent (handle : Nat)
  | sentNone
  | raised (e : String)
  deriving DecidableEq

/-- Outcome of the remote call: HTTP 200 with a JSON body, a non-200
status, `asyncio.TimeoutError`, or any other exception raised during the
call. -/
inductive RemoteOutcome where
  | ok (b : ApiBody)
  | non200 (code : Nat)
  | timeout
  | exn (e : String)
  deriving DecidableEq

def apiErrorMsg : String :=
  "Извините, произошла ошибка при обработке вашего запроса. Пожалуйста, попробуйте позже."

def timeoutMsg : String :=
  "Извините, запрос занял слишком много времени. Пожалуйста, попробуйте позже."

def genericErrorMsg : String := "Извините, произошла ошибка. Пожалуйста, попробуйте позже."

/-- Observable steps of one `process_question` run. -/
inductive FlowEvent where
  | sendPlaceholder
  | post
  | deletePlaceholder
  | sendFinal (text : String)
  deriving DecidableEq

/-- The final user-facing message of each outcome path. -/
def outcomeMsg : RemoteOutcome → String
  | .ok b => process_question_ok_handlers b
  | .non200 _ => apiErrorMsg
  | .timeout => timeoutMsg
  | .exn _ => genericErrorMsg

/-- Event trace of `process_question` (src/handlers.py line 68): the
placeholder send is attempted first; if it raises, the handler returns at
once.  Otherwise the remote POST is issued, and on every outcome path the
placeholder — when one exists, i.e. the wrapper returned a handle rather
than `None` — is deleted before the final message is sent. -/
def process_question (p : PhOutcome) (r : RemoteOutcome) : List FlowEvent :=
  match p with
  | .raised _ => [.sendPlaceholder]
  | .sent _ => [.sendPlaceholder, .post, .deletePlaceholder, .sendFinal (outcomeMsg r)]
  | .sentNone => [.sendPlaceholder, .post, .sendFinal (outcomeMsg r)]

/-- C9: in every run of `process_question` the placeholder send is the
first event; if the placeholder send raised, the run stops there — no
remote POST, no deletion, no further message; whenever the POST occurs it
comes strictly after the placeholder send; and whenever a placeholder
exists, its deletion occurs strictly before the final message. -/
theorem process_question_ordering (p : PhOutcome) (r : RemoteOutcome) :
    (process_question p r).head? = some .sendPlaceholder ∧
    (∀ e, p = .raised e → process_question p r = [.sendPlaceholder]) ∧
    (.post ∈ process_question p r →
      (process_question p r).indexOf .sendPlaceholder <
        (process_question p r).indexOf .post) ∧
    (∀ h, p = .sent h →
      (process_question p r).indexOf .deletePlaceholder <
        (process_question p r).indexOf (.sendFinal (outcomeMsg r))) := by
  cases p with
  | raised e =>
    refine ⟨rfl, fun _ _ => rfl, ?_, ?_⟩
    · intro hpost
      simp [process_question] at hpost
    · intro h hp
      simp at hp
  | sent h =>
    refine ⟨rfl, fun e hp => by simp at hp, ?_, ?_⟩
    · intro _
      simp [process_question, List.indexOf_cons]
    · intro h' _
      simp [process_question, List.indexOf_cons]
  | sentNone =>
    refine ⟨rfl, fun e hp => by simp at hp, ?_, ?_⟩
    · intro _
      simp [process_question, List.indexOf_cons]
    · intro h' hp
      simp at hp

/-- C9 witness. -/
theorem process_question_ordering_witness :
    (process_question (.sent 7) .timeout).indexOf .deletePlaceholder <
      (process_question (.sent 7) .timeout).indexOf (.sendFinal (outcomeMsg .timeout)) :=
  (process_question_ordering (.sent 7) .timeout).2.2.2 7 rfl

end DinarAI
